import Mathlib

/-!
# Verification of the autophage-engine ECS core

Shallow embedding of the ECS core of the `autophage-engine` repository:

* `Entity` / `EntityManager`   — `include/autophage/ecs/entity.hpp`
* `ComponentArray` (sparse set) and `ComponentRegistry`
                               — `include/autophage/ecs/component_storage.hpp`
* `Query` (two-component join) — `include/autophage/ecs/query.hpp`
* `SystemRegistry`             — `include/autophage/ecs/system.hpp`
* `World.destroyEntity`        — `include/autophage/ecs/world.hpp`
* profiler statistics / memory recording
                               — `src/profiler/profiler.cpp`

Machine integers (`u32`, `usize`) are modelled as `Nat`, with explicit
`% 2^32` / `% 2^64` at the points where the C++ code can overflow, and the
`usize` sentinel `INVALID_INDEX = ~usize{0}` modelled as the literal
`2^64 - 1`.  Vectors become `List`s, `vector::operator[]`-reads become
`List.get?` / `List.getD`, writes become `List.set` (which, like the
in-bounds C++ writes the code performs, leaves the list unchanged when the
index is out of range).
-/

namespace Autophage

/-- `EntityId` from `core/types.hpp`: a generational index pair.
The C++ fields are `u32`; they are modelled as `Nat` (u32-range side
conditions appear where a statement needs them). -/
structure Entity where
  index : Nat
  generation : Nat
deriving DecidableEq

/-- `INVALID_ENTITY{0, 0}` from `core/types.hpp`. -/
def INVALID_ENTITY : Entity := ⟨0, 0⟩

instance : Inhabited Entity := ⟨INVALID_ENTITY⟩

/-- `EntityId::isValid`: an entity is valid iff its generation is nonzero. -/
def Entity.isValid (e : Entity) : Bool := e.generation ≠ 0

-- =========================================================================
-- EntityManager (include/autophage/ecs/entity.hpp)
-- =========================================================================

/-- State of `EntityManager`: generation per slot, alive bitmap,
LIFO free list of recycled slots, and the alive counter. -/
structure EntityManager where
  generations : List Nat
  alive : List Bool
  freeList : List Nat
  aliveCount : Nat
deriving DecidableEq

/-- The default-constructed `EntityManager`. -/
def EntityManager.empty : EntityManager := ⟨[], [], [], 0⟩

/-- `EntityManager::isAlive`: bounds-check on the generation vector, then
alive bit and generation match. -/
def EntityManager.isAlive (em : EntityManager) (e : Entity) : Bool :=
  if e.index < em.generations.length then
    em.alive.getD e.index false && (em.generations.getD e.index 0 == e.generation)
  else false

/-- `EntityManager::create`: pop the back of the free list and bump that
slot's generation (a `u32` increment, hence `% 2^32`), or append a fresh
slot with generation 1.  Returns the updated manager and the new entity. -/
def EntityManager.create (em : EntityManager) : EntityManager × Entity :=
  match em.freeList.getLast? with
  | some index =>
      let g := (em.generations.getD index 0 + 1) % 2 ^ 32
      (⟨em.generations.set index g, em.alive.set index true,
        em.freeList.dropLast, em.aliveCount + 1⟩, ⟨index, g⟩)
  | none =>
      let index := em.generations.length % 2 ^ 32
      (⟨em.generations ++ [1], em.alive ++ [true],
        em.freeList, em.aliveCount + 1⟩, ⟨index, 1⟩)

/-- `EntityManager::destroy`: if the entity is alive, clear its alive bit,
push its slot onto the free list, decrement the alive count and return
`true`; otherwise return `false` leaving the state untouched. -/
def EntityManager.destroy (em : EntityManager) (e : Entity) :
    EntityManager × Bool :=
  if em.isAlive e then
    (⟨em.generations, em.alive.set e.index false,
      em.freeList ++ [e.index], em.aliveCount - 1⟩, true)
  else (em, false)

-- =========================================================================
-- ComponentArray (include/autophage/ecs/component_storage.hpp)
-- =========================================================================

/-- `ComponentArray<T>::INVALID_INDEX = ~usize{0}`. -/
def INVALID_INDEX : Nat := 2 ^ 64 - 1

/-- Sparse-set component storage `ComponentArray<T>`: parallel dense
entity/component vectors plus the sparse index vector. -/
structure ComponentArray (α : Type) where
  denseEntities : List Entity
  denseComponents : List α
  sparse : List Nat

/-- The default-constructed (empty) `ComponentArray<T>`. -/
def ComponentArray.empty {α : Type} : ComponentArray α := ⟨[], [], []⟩

/-- `ComponentArray<T>::size`. -/
def ComponentArray.size {α : Type} (s : ComponentArray α) : Nat :=
  s.denseEntities.length

/-- `ComponentArray<T>::has`: bounds-check the sparse vector, reject the
sentinel and out-of-range dense indices, then compare the stored dense
entity against the queried one. -/
def ComponentArray.has {α : Type} (s : ComponentArray α) (e : Entity) : Bool :=
  match s.sparse[e.index]? with
  | none => false
  | some denseIdx =>
      if denseIdx = INVALID_INDEX ∨ s.denseEntities.length ≤ denseIdx then
        false
      else s.denseEntities[denseIdx]? == some e

/-- `ComponentArray<T>::get`: `some` iff `has`. -/
def ComponentArray.get? {α : Type} (s : ComponentArray α) (e : Entity) :
    Option α :=
  if s.has e then s.denseComponents[(s.sparse[e.index]?).getD 0]?
  else none

/-- `ComponentArray<T>::set`: replace in place when `has(e)`, otherwise grow
the sparse vector to cover `e.index` (filling with `INVALID_INDEX`), point
`sparse[e.index]` at the current dense size and append to both dense
vectors.  In the replace branch `sparse.get? e.index` is `some` because
`has e` holds, so the `getD 0` default is never used. -/
def ComponentArray.set {α : Type} (s : ComponentArray α) (e : Entity) (v : α) :
    ComponentArray α :=
  if s.has e then
    { s with denseComponents :=
        s.denseComponents.set ((s.sparse[e.index]?).getD 0) v }
  else
    let sp :=
      if s.sparse.length ≤ e.index then
        s.sparse ++ List.replicate (e.index + 1 - s.sparse.length) INVALID_INDEX
      else s.sparse
    { denseEntities := s.denseEntities ++ [e]
      denseComponents := s.denseComponents ++ [v]
      sparse := sp.set e.index s.denseEntities.length }

/-- The dense-vector half of `ComponentArray<T>::remove`: overwrite position
`d` with the last element (unless `d` is already last) and pop the back.
On the empty list this is the identity, matching the fact that `remove`
only reaches this code when `has(e)` holds and the vectors are nonempty. -/
def swapRemove {α : Type} (l : List α) (d : Nat) : List α :=
  match l.getLast? with
  | none => l
  | some x => (if d = l.length - 1 then l else l.set d x).dropLast

/-- `ComponentArray<T>::remove`: no-op unless `has(e)`; otherwise swap the
removed slot with the last dense entry, redirect the sparse entry of the
formerly-last entity, pop the dense vectors and invalidate
`sparse[e.index]`. -/
def ComponentArray.remove {α : Type} (s : ComponentArray α) (e : Entity) :
    ComponentArray α :=
  if s.has e then
    let denseIdx := (s.sparse[e.index]?).getD 0
    let lastIdx := s.denseEntities.length - 1
    let sp1 :=
      if denseIdx = lastIdx then s.sparse
      else s.sparse.set (s.denseEntities.getD lastIdx default).index denseIdx
    { denseEntities := swapRemove s.denseEntities denseIdx
      denseComponents := swapRemove s.denseComponents denseIdx
      sparse := sp1.set e.index INVALID_INDEX }
  else s

/-- `ComponentArray<T>::onEntityDestroyed` forwards to `remove`. -/
def ComponentArray.onEntityDestroyed {α : Type} (s : ComponentArray α)
    (e : Entity) : ComponentArray α :=
  s.remove e

/-- `ComponentArray<T>::clear`. -/
def ComponentArray.clear {α : Type} (_s : ComponentArray α) :
    ComponentArray α :=
  ComponentArray.empty

-- =========================================================================
-- Operation sequences on a ComponentArray (for the sparse-set invariant)
-- =========================================================================

/-- The mutating operations a client can apply to a `ComponentArray<T>`. -/
inductive CompOp (α : Type) where
  | set (e : Entity) (v : α)
  | remove (e : Entity)
  | destroyed (e : Entity)
  | clear
deriving DecidableEq

/-- Apply one operation to the array. -/
def applyOp {α : Type} (s : ComponentArray α) : CompOp α → ComponentArray α
  | .set e v => s.set e v
  | .remove e => s.remove e
  | .destroyed e => s.onEntityDestroyed e
  | .clear => s.clear

/-- Run a sequence of operations left to right. -/
def runOps {α : Type} (s : ComponentArray α) : List (CompOp α) → ComponentArray α
  | [] => s
  | op :: rest => runOps (applyOp s op) rest

/-- Ghost bookkeeping: the set of entities passed to `set` and not since
removed (destroyed counts as removed; `clear` removes everything). -/
def opLive {α : Type} (L : Finset Entity) : CompOp α → Finset Entity
  | .set e _ => insert e L
  | .remove e => L.erase e
  | .destroyed e => L.erase e
  | .clear => ∅

/-- Run the ghost bookkeeping over a sequence of operations. -/
def runLive {α : Type} (L : Finset Entity) : List (CompOp α) → Finset Entity
  | [] => L
  | op :: rest => runLive (opLive L op) rest

/-- Well-formed use of one operation in a given state: `set e` requires
`e.index` to fit in the `u32` entity index type and to not collide with a
*different* entity of the same index currently stored in the dense vector
(the discipline a client observes when entities come from live
`EntityManager` handles).  `remove`, `onEntityDestroyed` and `clear` are
unrestricted. -/
def WFop {α : Type} (s : ComponentArray α) : CompOp α → Prop
  | .set e _ =>
      e.index < 2 ^ 32 ∧ ∀ e' ∈ s.denseEntities, e'.index = e.index → e' = e
  | _ => True

/-- Well-formed use of a whole operation sequence. -/
def WFops {α : Type} (s : ComponentArray α) : List (CompOp α) → Prop
  | [] => True
  | op :: rest => WFop s op ∧ WFops (applyOp s op) rest

/-- The sparse-set invariant of `ComponentArray<T>`, relative to the ghost
set `L` of entities set-and-not-removed: the dense vectors have equal
length; every dense entry points back to its own position through `sparse`;
dense entity indices fit in `u32` and occur at most once; and every dense
entity is in `L`. -/
structure SparseInv {α : Type} (s : ComponentArray α) (L : Finset Entity) :
    Prop where
  len_eq : s.denseEntities.length = s.denseComponents.length
  lookup : ∀ (d : Nat) (e : Entity),
    s.denseEntities[d]? = some e → s.sparse[e.index]? = some d
  idx_lt : ∀ e ∈ s.denseEntities, e.index < 2 ^ 32
  inj : ∀ (d₁ d₂ : Nat) (e₁ e₂ : Entity),
    s.denseEntities[d₁]? = some e₁ → s.denseEntities[d₂]? = some e₂ →
    e₁.index = e₂.index → d₁ = d₂
  member : ∀ e ∈ s.denseEntities, e ∈ L

-- =========================================================================
-- Query (include/autophage/ecs/query.hpp), two-component instance
-- =========================================================================

/-- `Query<A,B>::matchesAll`: membership in both component arrays. -/
def matchesAll {α β : Type} (a : ComponentArray α) (b : ComponentArray β)
    (e : Entity) : Bool :=
  a.has e && b.has e

/-- The entities handed to the callback of `Query<A,B>::forEach`, in
visit order: the primary (first) array's dense entities, filtered by
`matchesAll`. -/
def queryVisited {α β : Type} (a : ComponentArray α) (b : ComponentArray β) :
    List Entity :=
  a.denseEntities.filter (matchesAll a b)

/-- `Query<A,B>::count`: walk the primary array and count matches. -/
def queryCount {α β : Type} (a : ComponentArray α) (b : ComponentArray β) :
    Nat :=
  a.denseEntities.foldl (fun r e => if matchesAll a b e then r + 1 else r) 0

/-- `Query<A,B>::entities`: walk the primary array pushing matches. -/
def queryEntities {α β : Type} (a : ComponentArray α) (b : ComponentArray β) :
    List Entity :=
  a.denseEntities.foldl (fun r e => if matchesAll a b e then r ++ [e] else r) []

-- =========================================================================
-- SystemRegistry (include/autophage/ecs/system.hpp)
-- =========================================================================

/-- A registered system, as the registry observes it: its stable type-id
(`systemId()`, i.e. `typeId<Derived>()`), display name and enabled flag.
The `update`/`init`/`shutdown` bodies are opaque; the registry only calls
them, which the trace of `SysEvent`s below records. -/
structure MSystem where
  sid : Nat
  name : String
  enabled : Bool
deriving DecidableEq

/-- A lifecycle call the registry makes on a system. -/
inductive SysEvent where
  | initCall (s : MSystem)
  | shutdownCall (s : MSystem)
  | updateCall (s : MSystem)
deriving DecidableEq

/-- `SystemRegistry::registerSystem`: construct and append; no lifecycle
call is made. -/
def registerSys (l : List MSystem) (s : MSystem) : List MSystem :=
  l ++ [s]

/-- `SystemRegistry::replaceSystem<T, NewT>`: scan for the first system
whose `systemId()` equals `typeId<T>`; if found, call `shutdown` on it,
put the new system in its slot and call `init` on the new system.  If no
system matches, fall through to `registerSystem` (which appends and makes
no lifecycle call).  Returns the new system list and the trace of
lifecycle calls made. -/
def replaceSys (tid : Nat) (newS : MSystem) :
    List MSystem → List MSystem × List SysEvent
  | [] => (registerSys [] newS, [])
  | s :: rest =>
      if s.sid = tid then
        (newS :: rest, [.shutdownCall s, .initCall newS])
      else
        let r := replaceSys tid newS rest
        (s :: r.1, r.2)

/-- `SystemRegistry::updateAll`: call `update` on each system in
registration order, skipping disabled systems. -/
def updateAllTrace : List MSystem → List SysEvent
  | [] => []
  | s :: rest =>
      if s.enabled then .updateCall s :: updateAllTrace rest
      else updateAllTrace rest

-- =========================================================================
-- Profiler statistics (src/profiler/profiler.cpp)
-- =========================================================================

/-- `std::chrono::nanoseconds::max()`: the largest `i64` nanosecond count,
the initial value of `ProfilerStats::minFrameTime`. -/
def DURATION_MAX : Nat := 2 ^ 63 - 1

/-- The fields of `ProfilerStats` the statistics pass computes (frame
times in nanoseconds; the three FPS fields are floating-point derived
values and are not modelled). -/
structure ProfilerStatsM where
  sampleCount : Nat
  avgFrameTime : Nat
  minFrameTime : Nat
  maxFrameTime : Nat
  p95FrameTime : Nat
  p99FrameTime : Nat
  spikeThreshold : Nat
  spikeCount : Nat
deriving DecidableEq

/-- Insertion step of sorting the frame-time copy. -/
def insertSorted (x : Nat) : List Nat → List Nat
  | [] => [x]
  | y :: ys => if x ≤ y then x :: y :: ys else y :: insertSorted x ys

/-- `std::sort` on the copied frame times: the ascending reordering (on
`Nat` durations the sorted permutation is unique, so insertion sort
produces the same list as `std::sort`). -/
def sortTimes : List Nat → List Nat
  | [] => []
  | x :: xs => insertSorted x (sortTimes xs)

/-- `getProfilerStats`, over the ring of frame `totalTime`s (nanoseconds).
The percentile index `usize(p * (n - 1))` is computed in `double` by the
source with `p ∈ {0.95, 0.99}`; it is modelled by the exact
`⌊p_num·(n−1)/100⌋`.  Both `0.95` and `0.99` round *down* as IEEE doubles,
so at the history size the claims use (`n = 100`, exact products `94.05`
and `98.01`) the double truncation and the exact floor agree. -/
def getProfilerStats (history : List Nat) : ProfilerStatsM :=
  if history.isEmpty then ⟨0, 0, DURATION_MAX, 0, 0, 0, 0, 0⟩
  else
    let total := history.foldl (· + ·) 0
    let minT := history.foldl (fun m t => if t < m then t else m) DURATION_MAX
    let maxT := history.foldl (fun m t => if m < t then t else m) 0
    let avg := total / history.length
    let sorted := sortTimes history
    let p95 := sorted.getD (95 * (history.length - 1) / 100) 0
    let p99 := sorted.getD (99 * (history.length - 1) / 100) 0
    let threshold := avg * 2
    let spikes := (history.filter (fun t => threshold < t)).length
    ⟨history.length, avg, minT, maxT, p95, p99, threshold, spikes⟩

/-- `recordAllocation`: `currentFrame.memoryUsed += bytes` on a `usize`
counter (wraps modulo `2^64`). -/
def recordAllocation (memoryUsed bytes : Nat) : Nat :=
  (memoryUsed + bytes) % 2 ^ 64

/-- `recordDeallocation`: subtract only when `memoryUsed >= bytes`;
otherwise the counter is left untouched. -/
def recordDeallocation (memoryUsed bytes : Nat) : Nat :=
  if bytes ≤ memoryUsed then memoryUsed - bytes else memoryUsed

-- =========================================================================
-- ComponentRegistry and World (component_storage.hpp, world.hpp)
-- =========================================================================

/-- The type-erased `ComponentRegistry`: a finite map from type-id to a
component array.  All arrays are modelled over one component value type
`α`; `has`/`remove`/`onEntityDestroyed` never inspect component values, so
this loses nothing for the claims below. -/
abbrev Registry (α : Type) : Type := List (Nat × ComponentArray α)

/-- Find the array registered for a type-id, if any
(`ComponentRegistry::arrays_.find`). -/
def lookupArray {α : Type} (comps : Registry α) (tid : Nat) :
    Option (ComponentArray α) :=
  match comps.find? (fun p => p.1 == tid) with
  | some p => some p.2
  | none => none

/-- `ComponentRegistry::getArray<T>() const`: throws
(`std::runtime_error`) when the component type has never been registered,
modelled as `Except.error` carrying the exception message. -/
def getArrayConst {α : Type} (comps : Registry α) (tid : Nat) :
    Except String (ComponentArray α) :=
  match lookupArray comps tid with
  | some arr => .ok arr
  | none => .error "Component type not registered in const getArray()"

/-- `ComponentRegistry::getArray<T>()` (non-const): lazily registers an
empty array on first access, returning the updated registry and the
array. -/
def getArrayMut {α : Type} (comps : Registry α) (tid : Nat) :
    Registry α × ComponentArray α :=
  match lookupArray comps tid with
  | some arr => (comps, arr)
  | none => (comps ++ [(tid, ComponentArray.empty)], ComponentArray.empty)

/-- `ComponentRegistry::onEntityDestroyed`: fan the destruction out to
every registered array. -/
def registryOnEntityDestroyed {α : Type} (comps : Registry α) (e : Entity) :
    Registry α :=
  comps.map (fun p => (p.1, p.2.onEntityDestroyed e))

/-- The `World` facade: the entity manager plus the component registry
(the system registry plays no role in the world claims below). -/
structure WorldM (α : Type) where
  entities : EntityManager
  components : Registry α

/-- `World::destroyEntity`: destroy in the entity manager and fan out to
the component registry only if the entity was alive. -/
def WorldM.destroyEntity {α : Type} (w : WorldM α) (e : Entity) : WorldM α :=
  if (w.entities.destroy e).2 then
    ⟨(w.entities.destroy e).1, registryOnEntityDestroyed w.components e⟩
  else ⟨(w.entities.destroy e).1, w.components⟩

/-- `World::hasComponent<T>() const` via the const registry accessor:
propagates the exception on an unregistered type. -/
def WorldM.hasComponentConst {α : Type} (w : WorldM α) (tid : Nat)
    (e : Entity) : Except String Bool :=
  (getArrayConst w.components tid).map (fun arr => arr.has e)

/-- `World::getComponent<T>() const` via the const registry accessor. -/
def WorldM.getComponentConst {α : Type} (w : WorldM α) (tid : Nat)
    (e : Entity) : Except String (Option α) :=
  (getArrayConst w.components tid).map (fun arr => arr.get? e)

/-- The 100-sample frame history of the C6 scenario: `totalTime = i`
milliseconds (`i·10^6` nanoseconds) for `i ∈ [1..100]`. -/
def c6History : List Nat := (List.range 100).map (fun i => (i + 1) * 1000000)

/-- A component array reached by `set (0,1)`, `set (0,2)`, `set (0,1)`:
the stale-then-reused handle sequence leaves the entity `(0,1)` stored at
two dense positions.  (Reachable through the public `World` interface by
adding a component under a stale entity handle.) -/
def queryBadA : ComponentArray Nat :=
  ((ComponentArray.empty.set ⟨0, 1⟩ 0).set ⟨0, 2⟩ 0).set ⟨0, 1⟩ 0

/-- A second component array holding only `(0,1)`. -/
def queryBadB : ComponentArray Nat := ComponentArray.empty.set ⟨0, 1⟩ 0

/-- A well-formed primary array for the C3 witness. -/
def queryGoodA : ComponentArray Nat :=
  (ComponentArray.empty.set ⟨0, 1⟩ 10).set ⟨1, 1⟩ 20

/-- A well-formed secondary array for the C3 witness. -/
def queryGoodB : ComponentArray Nat := ComponentArray.empty.set ⟨0, 1⟩ 30

/-- The sparse-set state reached from the empty array by
`set (0,1)` then `set (0,2)`: the two generations of index 0 collide and
`sparse[0]` is redirected to the second entry, orphaning the first. -/
def collidedArray : ComponentArray Nat :=
  (ComponentArray.empty.set ⟨0, 1⟩ 0).set ⟨0, 2⟩ 0

/-- A concrete world for the C8 witness: one alive entity `(0,1)` and one
registered component array (type-id 7) holding a component for it. -/
def c8World : WorldM Nat :=
  ⟨(EntityManager.empty.create).1, [(7, ComponentArray.empty.set ⟨0, 1⟩ 42)]⟩

-- =========================================================================
-- Theorems
-- =========================================================================

/-- C2: entity recycling.  On a fresh manager, `create` yields
`(index 0, gen 1)`; destroying it and creating again yields
`(index 0, gen 2)`, with `isAlive` false for the stale handle and true for
the fresh one.  Recycling is LIFO: creating indices 0,1,2, destroying them
in that order, then creating thrice yields indices 2, 1, 0. -/
theorem C2_entity_recycling :
    (EntityManager.empty.create).2 = ⟨0, 1⟩ ∧
    ((EntityManager.empty.create).1.destroy ⟨0, 1⟩).2 = true ∧
    ((((EntityManager.empty.create).1.destroy ⟨0, 1⟩).1).create).2 = ⟨0, 2⟩ ∧
    ((((EntityManager.empty.create).1.destroy ⟨0, 1⟩).1).create).1.isAlive
      ⟨0, 1⟩ = false ∧
    ((((EntityManager.empty.create).1.destroy ⟨0, 1⟩).1).create).1.isAlive
      ⟨0, 2⟩ = true ∧
    (let em3 := (((EntityManager.empty.create).1.create).1.create).1
     ((EntityManager.empty.create).2.index = 0 ∧
      (((EntityManager.empty.create).1.create).2).index = 1 ∧
      ((((EntityManager.empty.create).1.create).1.create).2).index = 2) ∧
     (let emd := (((em3.destroy ⟨0, 1⟩).1.destroy ⟨1, 1⟩).1.destroy ⟨2, 1⟩).1
      (emd.create).2.index = 2 ∧
      ((emd.create).1.create).2.index = 1 ∧
      (((emd.create).1.create).1.create).2.index = 0)) := by
  decide

/-- C9: `destroy` returns true iff the entity was alive before the call,
and on a false return the manager state is completely unchanged. -/
theorem C9_destroy_result (em : EntityManager) (e : Entity) :
    (em.destroy e).2 = em.isAlive e ∧
    (em.isAlive e = false → em.destroy e = (em, false)) := by
  constructor
  · unfold EntityManager.destroy
    split <;> simp_all
  · intro h
    unfold EntityManager.destroy
    simp [h]

/-- C9 witness: a double destroy on the recycled-slot manager. -/
theorem C9_destroy_result_witness :
    ((EntityManager.empty.destroy ⟨0, 1⟩).2
        = EntityManager.empty.isAlive ⟨0, 1⟩) ∧
    (EntityManager.empty.destroy ⟨0, 1⟩ = (EntityManager.empty, false)) :=
  ⟨(C9_destroy_result EntityManager.empty ⟨0, 1⟩).1,
   (C9_destroy_result EntityManager.empty ⟨0, 1⟩).2 (by decide)⟩

/-- C7 counterexample: with an in-flight memory counter of 5 bytes,
`recordDeallocation 10` leaves the counter at 5, not 0 as the claim's
"saturating at zero" wording requires. -/
theorem C7_counterexample :
    recordDeallocation 5 10 = 5 ∧ recordDeallocation 5 10 ≠ 0 := by
  decide

/-- C7 (amended): `record_deallocation(b)` leaves the counter at `m - b`
when `b ≤ m` and leaves it *unchanged* (the subtraction is skipped
entirely) when `b > m`; `record_allocation(b)` leaves it at `m + b`
(as long as the `usize` counter does not wrap). -/
theorem C7_memory_counter (m b : Nat) :
    (b ≤ m → recordDeallocation m b = m - b) ∧
    (m < b → recordDeallocation m b = m) ∧
    (m + b < 2 ^ 64 → recordAllocation m b = m + b) := by
  refine ⟨fun h => ?_, fun h => ?_, fun h => ?_⟩
  · simp [recordDeallocation, h]
  · simp [recordDeallocation, Nat.not_le.mpr h]
  · simp only [recordAllocation]
    exact Nat.mod_eq_of_lt h

/-- C7 witness: both deallocation branches and an allocation. -/
theorem C7_memory_counter_witness :
    recordDeallocation 10 4 = 6 ∧ recordDeallocation 3 7 = 3 ∧
    recordAllocation 2 5 = 7 :=
  ⟨(C7_memory_counter 10 4).1 (by decide),
   (C7_memory_counter 3 7).2.1 (by decide),
   (C7_memory_counter 2 5).2.2 (by decide)⟩

set_option maxRecDepth 4096

/-- C6 counterexample: on the 1..100 ms history the code's percentile rule
`sorted[⌊p·(n−1)⌋]` selects `sorted[94] = 95 ms` and `sorted[98] = 99 ms`,
not the 96 ms / 100 ms the claim states. -/
theorem C6_counterexample :
    (getProfilerStats c6History).p95FrameTime = 95000000 ∧
    (getProfilerStats c6History).p95FrameTime ≠ 96000000 ∧
    (getProfilerStats c6History).p99FrameTime = 99000000 ∧
    (getProfilerStats c6History).p99FrameTime ≠ 100000000 := by
  decide

/-- C6 (amended): on the 1..100 ms history, `getProfilerStats` returns
100 samples, `avg = 50.5 ms`, `min = 1 ms`, `max = 100 ms`, `p95 = 95 ms`,
`p99 = 99 ms`, `spikeThreshold = 101 ms` and `spikeCount = 0` (times in
nanoseconds). -/
theorem C6_profiler_percentiles :
    getProfilerStats c6History =
      ⟨100, 50500000, 1000000, 100000000, 95000000, 99000000,
       101000000, 0⟩ := by
  decide

/-- C4: replacing the middle system of `[A, B, C]` by type-id installs the
replacement in B's slot (so the next `updateAll` runs A, then the new
system, then C), emits exactly `shutdown(B)` followed by `init(B')`, and
makes no lifecycle call on A or C. -/
theorem C4_replace_preserves_order (a b c newB : MSystem) (tid : Nat)
    (ha : a.sid ≠ tid) (hb : b.sid = tid)
    (ea : a.enabled = true) (en : newB.enabled = true)
    (ec : c.enabled = true) :
    replaceSys tid newB [a, b, c] =
      ([a, newB, c], [.shutdownCall b, .initCall newB]) ∧
    updateAllTrace [a, newB, c] =
      [.updateCall a, .updateCall newB, .updateCall c] := by
  constructor
  · simp [replaceSys, ha, hb]
  · simp [updateAllTrace, ea, en, ec]

/-- C4 witness: concrete systems A, B, C and a replacement B'. -/
theorem C4_replace_preserves_order_witness :
    replaceSys 2 ⟨4, "Bprime", true⟩
        [⟨1, "A", true⟩, ⟨2, "B", true⟩, ⟨3, "C", true⟩] =
      ([⟨1, "A", true⟩, ⟨4, "Bprime", true⟩, ⟨3, "C", true⟩],
       [.shutdownCall ⟨2, "B", true⟩, .initCall ⟨4, "Bprime", true⟩]) ∧
    updateAllTrace [⟨1, "A", true⟩, ⟨4, "Bprime", true⟩, ⟨3, "C", true⟩] =
      [.updateCall ⟨1, "A", true⟩, .updateCall ⟨4, "Bprime", true⟩,
       .updateCall ⟨3, "C", true⟩] :=
  C4_replace_preserves_order ⟨1, "A", true⟩ ⟨2, "B", true⟩ ⟨3, "C", true⟩
    ⟨4, "Bprime", true⟩ 2 (by decide) rfl rfl rfl rfl

/-- C5 counterexample: replacing a type-id absent from the registry
appends the new system but makes *no* lifecycle call — in particular
`init` is never invoked on it, contrary to the claim. -/
theorem C5_counterexample :
    replaceSys 2 ⟨5, "New", true⟩ [⟨1, "A", true⟩] =
      ([⟨1, "A", true⟩, ⟨5, "New", true⟩], []) ∧
    SysEvent.initCall ⟨5, "New", true⟩ ∉
      (replaceSys 2 ⟨5, "New", true⟩ [⟨1, "A", true⟩]).2 := by
  constructor
  · rfl
  · intro h
    simp [replaceSys, registerSys] at h

/-- C5 (amended): when no registered system's type-id matches `Old`,
`replaceSystem` appends the new system as a fresh registration and makes
no lifecycle call at all (in particular it does not call `init` on the
appended system). -/
theorem C5_replace_missing_appends (l : List MSystem) (tid : Nat)
    (newS : MSystem) (h : ∀ s ∈ l, s.sid ≠ tid) :
    replaceSys tid newS l = (l ++ [newS], []) := by
  induction l with
  | nil => rfl
  | cons s rest ih =>
      have hs : s.sid ≠ tid := h s (List.mem_cons_self s rest)
      have hrest : ∀ s' ∈ rest, s'.sid ≠ tid :=
        fun s' hs' => h s' (List.mem_cons_of_mem s hs')
      simp [replaceSys, hs, ih hrest]

/-- C5 witness: the amended behaviour at a concrete registry. -/
theorem C5_replace_missing_appends_witness :
    replaceSys 9 ⟨5, "New", true⟩ [⟨1, "A", true⟩, ⟨2, "B", false⟩] =
      ([⟨1, "A", true⟩, ⟨2, "B", false⟩, ⟨5, "New", true⟩], []) :=
  C5_replace_missing_appends [⟨1, "A", true⟩, ⟨2, "B", false⟩] 9
    ⟨5, "New", true⟩ (by decide)

/-- An entity reported by `has` is literally stored in the dense entity
vector (`has` ends by comparing `denseEntities_[denseIdx] == entity`). -/
theorem mem_of_has {α : Type} {s : ComponentArray α} {e : Entity}
    (h : s.has e = true) : e ∈ s.denseEntities := by
  unfold ComponentArray.has at h
  cases hs : s.sparse[e.index]? with
  | none => rw [hs] at h; cases h
  | some d =>
      rw [hs] at h
      dsimp only at h
      by_cases hc : d = INVALID_INDEX ∨ s.denseEntities.length ≤ d
      · rw [if_pos hc] at h; cases h
      · rw [if_neg hc] at h
        exact List.getElem?_mem (by simpa using h)

/-- The counting loop of `Query::count` is the length of the filtered
visit list. -/
theorem foldl_count_eq_filter_length {γ : Type} (p : γ → Bool) (l : List γ)
    (n : Nat) :
    l.foldl (fun r e => if p e then r + 1 else r) n
      = n + (l.filter p).length := by
  induction l generalizing n with
  | nil => simp
  | cons x xs ih =>
      by_cases hx : p x = true
      · simp [hx, ih, Nat.add_comm, Nat.add_assoc, Nat.add_left_comm]
      · simp [hx, ih, List.filter_cons]

/-- The accumulating loop of `Query::entities` is the filtered visit
list. -/
theorem foldl_push_eq_filter {γ : Type} (p : γ → Bool) (l : List γ)
    (acc : List γ) :
    l.foldl (fun r e => if p e then r ++ [e] else r) acc
      = acc ++ l.filter p := by
  induction l generalizing acc with
  | nil => simp
  | cons x xs ih =>
      by_cases hx : p x = true
      · simp [hx, ih, List.filter_cons]
      · simp [hx, ih, List.filter_cons]

/-- C3 counterexample: in the (API-reachable) state where `(0,1)` occurs
at two dense positions of the primary array, `(0,1)` matches the query
(`has` holds in both arrays) but `forEach` visits it twice and `count`
reports 2 — not "exactly once" as the claim states for every world
state. -/
theorem C3_counterexample :
    queryBadA.has ⟨0, 1⟩ = true ∧ queryBadB.has ⟨0, 1⟩ = true ∧
    (queryVisited queryBadA queryBadB).count ⟨0, 1⟩ = 2 ∧
    queryCount queryBadA queryBadB = 2 := by
  decide

/-- C3 (amended): whenever the primary array's dense entity vector has no
duplicate entries — which the sparse-set invariant guarantees —
`Query<A,B>::forEach` visits exactly the set `{e | has_A e ∧ has_B e}`,
each such entity exactly once, and `count`/`entities` agree with the
visit list. -/
theorem C3_query_join {α β : Type} (a : ComponentArray α)
    (b : ComponentArray β) (hnd : a.denseEntities.Nodup) :
    (queryVisited a b).Nodup ∧
    (∀ e : Entity, e ∈ queryVisited a b ↔ (a.has e = true ∧ b.has e = true)) ∧
    queryCount a b = (queryVisited a b).length ∧
    queryEntities a b = queryVisited a b := by
  refine ⟨hnd.filter _, fun e => ?_, ?_, ?_⟩
  · constructor
    · intro he
      have := List.mem_filter.mp he
      have hm : matchesAll a b e = true := this.2
      exact Bool.and_eq_true_iff.mp hm
    · rintro ⟨hA, hB⟩
      exact List.mem_filter.mpr
        ⟨mem_of_has hA, by simp [matchesAll, hA, hB]⟩
  · simpa using foldl_count_eq_filter_length (matchesAll a b)
      a.denseEntities 0
  · simpa using foldl_push_eq_filter (matchesAll a b) a.denseEntities []

/-- C3 witness: the amended statement at concrete two-entity arrays. -/
theorem C3_query_join_witness :
    (queryVisited queryGoodA queryGoodB).Nodup ∧
    ((⟨0, 1⟩ : Entity) ∈ queryVisited queryGoodA queryGoodB ↔
      (queryGoodA.has ⟨0, 1⟩ = true ∧ queryGoodB.has ⟨0, 1⟩ = true)) ∧
    queryCount queryGoodA queryGoodB
      = (queryVisited queryGoodA queryGoodB).length ∧
    queryEntities queryGoodA queryGoodB
      = queryVisited queryGoodA queryGoodB := by
  have h := C3_query_join queryGoodA queryGoodB (by decide)
  exact ⟨h.1, h.2.1 ⟨0, 1⟩, h.2.2.1, h.2.2.2⟩

/-- Unfolding of `has` into its three checks. -/
theorem has_eq_true_iff {α : Type} {s : ComponentArray α} {e : Entity} :
    s.has e = true ↔
      ∃ d, s.sparse[e.index]? = some d ∧
        ¬(d = INVALID_INDEX ∨ s.denseEntities.length ≤ d) ∧
        s.denseEntities[d]? = some e := by
  unfold ComponentArray.has
  cases hs : s.sparse[e.index]? with
  | none => simp
  | some d =>
      dsimp only
      by_cases hc : d = INVALID_INDEX ∨ s.denseEntities.length ≤ d
      · rw [if_pos hc]
        refine iff_of_false (by simp) ?_
        rintro ⟨d', hd', hcon, _⟩
        rw [Option.some_inj] at hd'
        subst hd'
        exact hcon hc
      · rw [if_neg hc]
        constructor
        · intro hb
          exact ⟨d, rfl, hc, by simpa using hb⟩
        · rintro ⟨d', hd', _, hket⟩
          rw [Option.some_inj] at hd'
          subst hd'
          simpa using hket

/-- After `remove e`, `has e` is false: the final write sets
`sparse[e.index]` to the sentinel (and `remove` is a no-op when `has e`
was already false). -/
theorem remove_has_self {α : Type} (s : ComponentArray α) (e : Entity) :
    (s.remove e).has e = false := by
  by_cases h : s.has e = true
  · obtain ⟨d, hs, _hc, _hd⟩ := has_eq_true_iff.mp h
    have hlt : e.index < s.sparse.length := by
      rcases List.getElem?_eq_some.mp hs with ⟨hlt, _⟩
      exact hlt
    unfold ComponentArray.remove
    rw [if_pos h]
    have hlen : (if (s.sparse[e.index]?).getD 0 = s.denseEntities.length - 1
        then s.sparse
        else s.sparse.set
          (s.denseEntities.getD (s.denseEntities.length - 1) default).index
          ((s.sparse[e.index]?).getD 0)).length = s.sparse.length := by
      split <;> simp
    unfold ComponentArray.has
    rw [List.getElem?_set_self (by rw [hlen]; exact hlt)]
    simp [INVALID_INDEX]
  · rw [Bool.not_eq_true] at h
    unfold ComponentArray.remove
    rw [if_neg (by simp [h])]
    exact h

/-- After a successful `destroy`, `isAlive` is false for the destroyed
handle (and it stays false when `destroy` was a no-op). -/
theorem destroy_isAlive_self (em : EntityManager) (e : Entity) :
    ((em.destroy e).1).isAlive e = false := by
  by_cases h : em.isAlive e = true
  · have halive : (em.alive.set e.index false).getD e.index false = false := by
      rcases Nat.lt_or_ge e.index em.alive.length with hlt | hge
      · rw [List.getD_eq_getElem?_getD,
          List.getElem?_set_self (by simpa using hlt)]
        rfl
      · rw [List.getD_eq_getElem?_getD, List.getElem?_eq_none
          (by simpa using hge)]
        rfl
    unfold EntityManager.destroy
    rw [if_pos h]
    unfold EntityManager.isAlive
    split
    · rw [halive]
      rfl
    · rfl
  · rw [Bool.not_eq_true] at h
    unfold EntityManager.destroy
    rw [if_neg (by simp [h])]
    exact h

/-- C8: destroying an alive entity destroys it in the entity manager and
removes it from every registered component array, so every registered
`has_component` is false afterwards; destroying a dead entity leaves the
component registry untouched. -/
theorem C8_destroy_entity {α : Type} (w : WorldM α) (e : Entity) :
    (w.entities.isAlive e = true →
      (w.destroyEntity e).entities.isAlive e = false ∧
      ∀ p ∈ (w.destroyEntity e).components, p.2.has e = false) ∧
    (w.entities.isAlive e = false →
      (w.destroyEntity e).components = w.components) := by
  constructor
  · intro h
    have hd : (w.entities.destroy e).2 = true := by
      unfold EntityManager.destroy
      rw [if_pos h]
    constructor
    · unfold WorldM.destroyEntity
      rw [hd]
      exact destroy_isAlive_self w.entities e
    · intro p hp
      unfold WorldM.destroyEntity at hp
      rw [hd] at hp
      simp only [if_true] at hp
      simp only [registryOnEntityDestroyed, List.mem_map] at hp
      obtain ⟨q, _, hq⟩ := hp
      rw [← hq]
      exact remove_has_self q.2 e
  · intro h
    have hd : (w.entities.destroy e).2 = false := by
      unfold EntityManager.destroy
      rw [if_neg (by simp [h])]
    unfold WorldM.destroyEntity
    rw [hd]
    simp

/-- C8 witness: a world with one alive entity owning one component. -/
theorem C8_destroy_entity_witness :
    (c8World.destroyEntity ⟨0, 1⟩).entities.isAlive ⟨0, 1⟩ = false ∧
    ((ComponentArray.empty.set ⟨0, 1⟩ 42).onEntityDestroyed ⟨0, 1⟩).has
      ⟨0, 1⟩ = false := by
  have h := (C8_destroy_entity c8World ⟨0, 1⟩).1 (by decide)
  have hm : (7, (ComponentArray.empty.set ⟨0, 1⟩ 42).onEntityDestroyed
      ⟨0, 1⟩) ∈ (c8World.destroyEntity ⟨0, 1⟩).components := by
    have hc : (c8World.destroyEntity ⟨0, 1⟩).components =
        [(7, (ComponentArray.empty.set ⟨0, 1⟩ 42).onEntityDestroyed
          ⟨0, 1⟩)] := rfl
    rw [hc]
    exact List.mem_singleton.mpr rfl
  exact ⟨h.1, h.2 _ hm⟩

/-- C10: for a type-id never registered (and never accessed through the
lazily-registering non-const path), the const accessors propagate the
`std::runtime_error` instead of returning `None`/`false`, while the
non-const `getArray` appends a fresh empty array for that type-id. -/
theorem C10_const_access_throws {α : Type} (w : WorldM α) (tid : Nat)
    (e : Entity) (h : lookupArray w.components tid = none) :
    w.hasComponentConst tid e =
      .error "Component type not registered in const getArray()" ∧
    w.getComponentConst tid e =
      .error "Component type not registered in const getArray()" ∧
    (getArrayMut w.components tid).1 =
      w.components ++ [(tid, ComponentArray.empty)] ∧
    lookupArray (getArrayMut w.components tid).1 tid =
      some ComponentArray.empty := by
  have hge : getArrayConst (α := α) w.components tid =
      .error "Component type not registered in const getArray()" := by
    unfold getArrayConst
    rw [h]
  refine ⟨?_, ?_, ?_, ?_⟩
  · unfold WorldM.hasComponentConst
    rw [hge]; rfl
  · unfold WorldM.getComponentConst
    rw [hge]; rfl
  · unfold getArrayMut
    rw [h]
  · unfold getArrayMut
    rw [h]
    unfold lookupArray at h ⊢
    cases hf : w.components.find? (fun p => p.1 == tid) with
    | none =>
        rw [List.find?_append, hf]
        simp
    | some p => rw [hf] at h; cases h

/-- C10 witness: an unregistered type-id on a fresh world. -/
theorem C10_const_access_throws_witness :
    (WorldM.hasComponentConst (α := Nat) ⟨EntityManager.empty, []⟩ 7 ⟨0, 1⟩ =
      .error "Component type not registered in const getArray()") ∧
    (WorldM.getComponentConst (α := Nat) ⟨EntityManager.empty, []⟩ 7 ⟨0, 1⟩ =
      .error "Component type not registered in const getArray()") ∧
    ((getArrayMut (α := Nat) [] 7).1 = [(7, ComponentArray.empty)]) ∧
    (lookupArray (getArrayMut (α := Nat) [] 7).1 7 =
      some ComponentArray.empty) := by
  have h := C10_const_access_throws (α := Nat) ⟨EntityManager.empty, []⟩ 7
    ⟨0, 1⟩ rfl
  exact ⟨h.1, h.2.1, by simpa using h.2.2.1, h.2.2.2⟩

/-- `swapRemove` always shortens by one (it is only invoked on nonempty
lists, where a last element exists to swap in). -/
theorem swapRemove_length {γ : Type} (l : List γ) (d : Nat) :
    (swapRemove l d).length = l.length - 1 := by
  cases hl : l.getLast? with
  | none =>
      rw [List.getLast?_eq_none_iff] at hl
      subst hl
      rfl
  | some x =>
      have hred : swapRemove l d
          = (if d = l.length - 1 then l else l.set d x).dropLast := by
        unfold swapRemove
        rw [hl]
      rw [hred]
      split <;> simp

/-- The invariant forces distinct dense positions to hold distinct
entities. -/
theorem SparseInv.nodup {α : Type} {s : ComponentArray α} {L : Finset Entity}
    (h : SparseInv s L) : s.denseEntities.Nodup := by
  rw [List.nodup_iff_getElem?_ne_getElem?]
  intro i j hij hjlen heq
  have hj : s.denseEntities[j]? = some s.denseEntities[j] :=
    List.getElem?_eq_getElem hjlen
  have hi : s.denseEntities[i]? = some s.denseEntities[j] := by
    rw [heq]; exact hj
  have := h.inj i j _ _ hi hj rfl
  omega

/-- The invariant forces distinct dense positions to hold entities with
distinct indices, so the dense size is bounded by the number of `u32`
indices. -/
theorem SparseInv.size_le {α : Type} {s : ComponentArray α}
    {L : Finset Entity} (h : SparseInv s L) :
    s.denseEntities.length ≤ 2 ^ 32 := by
  have hmapnd : (s.denseEntities.map Entity.index).Nodup := by
    rw [List.nodup_iff_getElem?_ne_getElem?]
    intro i j hij hjlen heq
    rw [List.length_map] at hjlen
    have hilen : i < s.denseEntities.length := lt_trans hij hjlen
    rw [List.getElem?_map, List.getElem?_map,
      List.getElem?_eq_getElem hilen, List.getElem?_eq_getElem hjlen] at heq
    simp at heq
    have := h.inj i j _ _ (List.getElem?_eq_getElem hilen)
      (List.getElem?_eq_getElem hjlen) heq
    omega
  have hsub : (s.denseEntities.map Entity.index).toFinset ⊆
      Finset.range (2 ^ 32) := by
    intro x hx
    rw [List.mem_toFinset, List.mem_map] at hx
    obtain ⟨e, he, hex⟩ := hx
    rw [Finset.mem_range, ← hex]
    exact h.idx_lt e he
  have := Finset.card_le_card hsub
  rw [List.toFinset_card_of_nodup hmapnd, Finset.card_range,
    List.length_map] at this
  exact this

/-- Under the invariant, `has` is exactly dense-vector membership. -/
theorem SparseInv.has_iff_mem {α : Type} {s : ComponentArray α}
    {L : Finset Entity} (h : SparseInv s L) (e : Entity) :
    s.has e = true ↔ e ∈ s.denseEntities := by
  constructor
  · exact mem_of_has
  · intro hmem
    obtain ⟨d, hd⟩ := List.mem_iff_getElem?.mp hmem
    have hlk := h.lookup d e hd
    have hdlt : d < s.denseEntities.length := by
      rcases List.getElem?_eq_some.mp hd with ⟨hlt, _⟩
      exact hlt
    rw [has_eq_true_iff]
    refine ⟨d, hlk, ?_, hd⟩
    rintro (hI | hge)
    · have : d < 2 ^ 32 := lt_of_lt_of_le hdlt h.size_le
      rw [hI, INVALID_INDEX] at this
      omega
    · omega

/-- `set` preserves the sparse-set invariant, for well-formed use. -/
theorem SparseInv.set_preserved {α : Type} {s : ComponentArray α}
    {L : Finset Entity} {e : Entity} {v : α} (h : SparseInv s L)
    (hwf : WFop s (.set e v)) : SparseInv (s.set e v) (insert e L) := by
  obtain ⟨hidx, hcol⟩ := hwf
  by_cases hh : s.has e = true
  · have hset : s.set e v = ⟨s.denseEntities,
        s.denseComponents.set ((s.sparse[e.index]?).getD 0) v, s.sparse⟩ := by
      unfold ComponentArray.set
      rw [if_pos hh]
    rw [hset]
    exact
      { len_eq := by simp [h.len_eq]
        lookup := h.lookup
        idx_lt := h.idx_lt
        inj := h.inj
        member := fun e' he' => Finset.mem_insert_of_mem (h.member e' he') }
  · have hnotmem : e ∉ s.denseEntities := fun hmem =>
      hh ((h.has_iff_mem e).mpr hmem)
    have hidxne : ∀ e' ∈ s.denseEntities, e'.index ≠ e.index := by
      intro e' he' hix
      have he'e := hcol e' he' hix
      rw [he'e] at he'
      exact hnotmem he'
    obtain ⟨sp2, hset, hsp2get, hsp2lt⟩ :
        ∃ sp2 : List Nat,
          s.set e v = ⟨s.denseEntities ++ [e], s.denseComponents ++ [v],
            sp2.set e.index s.denseEntities.length⟩ ∧
          (∀ i, i < s.sparse.length → sp2[i]? = s.sparse[i]?) ∧
          e.index < sp2.length := by
      refine ⟨if s.sparse.length ≤ e.index then
          s.sparse ++ List.replicate (e.index + 1 - s.sparse.length)
            INVALID_INDEX
        else s.sparse, ?_, ?_, ?_⟩
      · unfold ComponentArray.set
        rw [if_neg hh]
      · intro i hi
        split
        · exact List.getElem?_append_left hi
        · rfl
      · split
        · rename_i hle
          simp only [List.length_append, List.length_replicate]
          omega
        · rename_i hle
          omega
    rw [hset]
    refine { len_eq := ?_, lookup := ?_, idx_lt := ?_, inj := ?_,
             member := ?_ }
    · simp [h.len_eq]
    · intro d e2 hd2
      simp only at hd2 ⊢
      rcases Nat.lt_or_ge d s.denseEntities.length with hdn | hdn
      · have he2 : s.denseEntities[d]? = some e2 := by
          rw [List.getElem?_append_left hdn] at hd2
          exact hd2
        have he2mem : e2 ∈ s.denseEntities := List.getElem?_mem he2
        have hne : e2.index ≠ e.index := hidxne e2 he2mem
        have hlk := h.lookup d e2 he2
        have hlt2 : e2.index < s.sparse.length :=
          (List.getElem?_eq_some.mp hlk).1
        rw [List.getElem?_set_ne (Ne.symm hne), hsp2get _ hlt2]
        exact hlk
      · have hdlen : d < s.denseEntities.length + 1 := by
          have := (List.getElem?_eq_some.mp hd2).1
          simpa using this
        have hdeq : d = s.denseEntities.length := by omega
        subst hdeq
        have he2e : e2 = e := by
          rw [List.getElem?_concat_length] at hd2
          simpa using hd2.symm
        subst he2e
        rw [List.getElem?_set_self hsp2lt]
    · intro e2 he2
      rcases List.mem_append.mp he2 with hm | hm
      · exact h.idx_lt e2 hm
      · rw [List.mem_singleton.mp hm]
        exact hidx
    · intro d1 d2 e1 e2 h1 h2 heq
      simp only at h1 h2
      have hl1 : d1 < s.denseEntities.length + 1 := by
        have := (List.getElem?_eq_some.mp h1).1
        simpa using this
      have hl2 : d2 < s.denseEntities.length + 1 := by
        have := (List.getElem?_eq_some.mp h2).1
        simpa using this
      rcases Nat.lt_or_ge d1 s.denseEntities.length with c1 | c1 <;>
        rcases Nat.lt_or_ge d2 s.denseEntities.length with c2 | c2
      · rw [List.getElem?_append_left c1] at h1
        rw [List.getElem?_append_left c2] at h2
        exact h.inj d1 d2 e1 e2 h1 h2 heq
      · have hd2eq : d2 = s.denseEntities.length := by omega
        subst hd2eq
        rw [List.getElem?_concat_length] at h2
        have he2e : e2 = e := by simpa using h2.symm
        subst he2e
        rw [List.getElem?_append_left c1] at h1
        exact absurd heq (hidxne e1 (List.getElem?_mem h1))
      · have hd1eq : d1 = s.denseEntities.length := by omega
        subst hd1eq
        rw [List.getElem?_concat_length] at h1
        have he1e : e1 = e := by simpa using h1.symm
        subst he1e
        rw [List.getElem?_append_left c2] at h2
        exact absurd heq.symm (hidxne e2 (List.getElem?_mem h2))
      · omega
    · intro e2 he2
      rcases List.mem_append.mp he2 with hm | hm
      · exact Finset.mem_insert_of_mem (h.member e2 hm)
      · rw [List.mem_singleton.mp hm]
        exact Finset.mem_insert_self e L

/-- `remove` preserves the sparse-set invariant (unconditionally). -/
theorem SparseInv.remove_preserved {α : Type} {s : ComponentArray α}
    {L : Finset Entity} {e : Entity} (h : SparseInv s L) :
    SparseInv (s.remove e) (L.erase e) := by
  by_cases hh : s.has e = true
  case neg =>
    have hrem : s.remove e = s := by
      unfold ComponentArray.remove
      rw [if_neg hh]
    rw [hrem]
    refine { len_eq := h.len_eq, lookup := h.lookup, idx_lt := h.idx_lt,
             inj := h.inj, member := ?_ }
    intro e2 he2
    refine Finset.mem_erase.mpr ⟨?_, h.member e2 he2⟩
    intro he2e
    rw [he2e] at he2
    exact hh ((h.has_iff_mem e).mpr he2)
  case pos =>
    obtain ⟨d0, hs0, hguard, hd0⟩ := has_eq_true_iff.mp hh
    push_neg at hguard
    obtain ⟨hnI, hd0lt'⟩ := hguard
    have hd0lt : d0 < s.denseEntities.length := by omega
    have hn : 0 < s.denseEntities.length := by omega
    have hgetD : (s.sparse[e.index]?).getD 0 = d0 := by
      rw [hs0]
      rfl
    have hlastlt : s.denseEntities.length - 1 < s.denseEntities.length :=
      Nat.sub_lt hn one_pos
    obtain ⟨eL, hLget, hLgetD⟩ :
        ∃ eL, s.denseEntities[s.denseEntities.length - 1]? = some eL ∧
          s.denseEntities.getD (s.denseEntities.length - 1) default = eL := by
      refine ⟨s.denseEntities[s.denseEntities.length - 1],
        List.getElem?_eq_getElem hlastlt, ?_⟩
      rw [List.getD_eq_getElem?_getD, List.getElem?_eq_getElem hlastlt]
      rfl
    have hrem : s.remove e = ⟨swapRemove s.denseEntities d0,
        swapRemove s.denseComponents d0,
        (if d0 = s.denseEntities.length - 1 then s.sparse
         else s.sparse.set eL.index d0).set e.index INVALID_INDEX⟩ := by
      unfold ComponentArray.remove
      rw [if_pos hh]
      simp only [hgetD, hLgetD]
    -- reading the shortened dense vector below the removed length
    have hswapDE : ∀ d, d < s.denseEntities.length - 1 →
        (swapRemove s.denseEntities d0)[d]? =
          (if d0 = s.denseEntities.length - 1 then s.denseEntities
           else s.denseEntities.set d0 eL)[d]? := by
      intro d hd
      have hgl : s.denseEntities.getLast? = some eL := by
        rw [List.getLast?_eq_getElem?]
        exact hLget
      have hswapEq : swapRemove s.denseEntities d0
          = (if d0 = s.denseEntities.length - 1 then s.denseEntities
             else s.denseEntities.set d0 eL).dropLast := by
        unfold swapRemove
        rw [hgl]
      rw [hswapEq]
      split
      · rw [List.dropLast_eq_take, List.getElem?_take_of_lt hd]
      · rw [List.dropLast_eq_take, List.length_set,
          List.getElem?_take_of_lt hd]
    have hlenD : (swapRemove s.denseEntities d0).length
        = s.denseEntities.length - 1 := swapRemove_length _ _
    -- full case analysis of a read from the shortened dense vector
    have hD : ∀ (d : Nat) (e2 : Entity),
        (swapRemove s.denseEntities d0)[d]? = some e2 →
        d < s.denseEntities.length - 1 ∧
        ((d0 = s.denseEntities.length - 1 ∧
            s.denseEntities[d]? = some e2) ∨
         (d0 ≠ s.denseEntities.length - 1 ∧ d = d0 ∧ e2 = eL) ∨
         (d0 ≠ s.denseEntities.length - 1 ∧ d ≠ d0 ∧
            s.denseEntities[d]? = some e2)) := by
      intro d e2 hd
      have hdlt : d < (swapRemove s.denseEntities d0).length :=
        (List.getElem?_eq_some.mp hd).1
      rw [hlenD] at hdlt
      refine ⟨hdlt, ?_⟩
      rw [hswapDE d hdlt] at hd
      by_cases hc : d0 = s.denseEntities.length - 1
      · rw [if_pos hc] at hd
        exact Or.inl ⟨hc, hd⟩
      · rw [if_neg hc] at hd
        by_cases hdd : d = d0
        · subst hdd
          rw [List.getElem?_set_self hd0lt] at hd
          exact Or.inr (Or.inl ⟨hc, rfl, by simpa using hd.symm⟩)
        · rw [List.getElem?_set_ne (Ne.symm hdd)] at hd
          exact Or.inr (Or.inr ⟨hc, hdd, hd⟩)
    -- every entity of the shortened vector sits in the original vector at
    -- a position other than the removed one
    have hOrig : ∀ (d : Nat) (e2 : Entity),
        (swapRemove s.denseEntities d0)[d]? = some e2 →
        ∃ p, p ≠ d0 ∧ s.denseEntities[p]? = some e2 := by
      intro d e2 hd
      obtain ⟨hdlt, hcases⟩ := hD d e2 hd
      rcases hcases with ⟨hc, hde⟩ | ⟨hc, hdd0, he2L⟩ | ⟨hc, hdd0, hde⟩
      · exact ⟨d, by omega, hde⟩
      · exact ⟨s.denseEntities.length - 1, Ne.symm hc, he2L ▸ hLget⟩
      · exact ⟨d, hdd0, hde⟩
    have hne_e : ∀ (d : Nat) (e2 : Entity),
        (swapRemove s.denseEntities d0)[d]? = some e2 → e2 ≠ e := by
      intro d e2 hd he2e
      obtain ⟨p, hpne, hpe⟩ := hOrig d e2 hd
      subst he2e
      exact hpne (h.inj p d0 e2 e2 hpe hd0 rfl)
    rw [hrem]
    refine { len_eq := ?_, lookup := ?_, idx_lt := ?_, inj := ?_,
             member := ?_ }
    · simp only [swapRemove_length, h.len_eq]
    · intro d e2 hd
      simp only at hd ⊢
      obtain ⟨hdlt, hcases⟩ := hD d e2 hd
      have hne : e2.index ≠ e.index := by
        intro hix
        obtain ⟨p, hpne, hpe⟩ := hOrig d e2 hd
        exact hpne (h.inj p d0 e2 e hpe hd0 hix)
      rcases hcases with ⟨hc, hde⟩ | ⟨hc, hdd0, he2L⟩ | ⟨hc, hdd0, hde⟩
      · rw [if_pos hc, List.getElem?_set_ne (Ne.symm hne)]
        exact h.lookup d e2 hde
      · subst he2L
        subst hdd0
        have hLlk := h.lookup _ _ hLget
        have hLlt : e2.index < s.sparse.length :=
          (List.getElem?_eq_some.mp hLlk).1
        rw [if_neg hc, List.getElem?_set_ne (Ne.symm hne),
          List.getElem?_set_self hLlt]
      · have hneL : e2.index ≠ eL.index := by
          intro hix
          have := h.inj d (s.denseEntities.length - 1) e2 eL hde hLget hix
          omega
        rw [if_neg hc, List.getElem?_set_ne (Ne.symm hne),
          List.getElem?_set_ne (Ne.symm hneL)]
        exact h.lookup d e2 hde
    · intro e2 he2
      obtain ⟨d, hd⟩ := List.mem_iff_getElem?.mp he2
      obtain ⟨p, _, hpe⟩ := hOrig d e2 hd
      exact h.idx_lt e2 (List.getElem?_mem hpe)
    · intro d1 d2 e1 e2 h1 h2 heq
      simp only at h1 h2
      obtain ⟨hl1, hc1⟩ := hD d1 e1 h1
      obtain ⟨hl2, hc2⟩ := hD d2 e2 h2
      rcases hc1 with ⟨hc, hde1⟩ | ⟨hc, hdd1, he1L⟩ | ⟨hc, hdd1, hde1⟩ <;>
        rcases hc2 with ⟨hc', hde2⟩ | ⟨hc', hdd2, he2L⟩ | ⟨hc', hdd2, hde2⟩
      · exact h.inj d1 d2 e1 e2 hde1 hde2 heq
      · exact absurd hc hc'
      · exact absurd hc hc'
      · exact absurd hc' hc
      · rw [hdd1, hdd2]
      · subst he1L
        have := h.inj (s.denseEntities.length - 1) d2 e1 e2 hLget hde2 heq
        omega
      · exact absurd hc' hc
      · subst he2L
        have := h.inj d1 (s.denseEntities.length - 1) e1 e2 hde1 hLget heq
        omega
      · exact h.inj d1 d2 e1 e2 hde1 hde2 heq
    · intro e2 he2
      obtain ⟨d, hd⟩ := List.mem_iff_getElem?.mp he2
      obtain ⟨p, _, hpe⟩ := hOrig d e2 hd
      exact Finset.mem_erase.mpr
        ⟨hne_e d e2 hd, h.member e2 (List.getElem?_mem hpe)⟩

/-- `clear` trivially re-establishes the invariant with an empty ghost
set. -/
theorem SparseInv.clear_preserved {α : Type} (s : ComponentArray α) :
    SparseInv (s.clear) (∅ : Finset Entity) := by
  refine { len_eq := rfl, lookup := ?_, idx_lt := ?_, inj := ?_,
           member := ?_ } <;>
    intro a b <;> simp [ComponentArray.clear, ComponentArray.empty] at *

/-- Any single well-formed operation preserves the invariant, with the
matching ghost update. -/
theorem SparseInv.applyOp_preserved {α : Type} {s : ComponentArray α}
    {L : Finset Entity} (h : SparseInv s L) (op : CompOp α)
    (hwf : WFop s op) : SparseInv (applyOp s op) (opLive L op) := by
  cases op with
  | set e v => exact h.set_preserved hwf
  | remove e => exact h.remove_preserved
  | destroyed e => exact h.remove_preserved
  | clear => exact SparseInv.clear_preserved s

/-- Any well-formed operation sequence preserves the invariant. -/
theorem SparseInv.runOps_preserved {α : Type} {s : ComponentArray α}
    {L : Finset Entity} {ops : List (CompOp α)} (h : SparseInv s L)
    (hwf : WFops s ops) : SparseInv (runOps s ops) (runLive L ops) := by
  induction ops generalizing s L with
  | nil => exact h
  | cons op rest ih => exact ih (h.applyOp_preserved op hwf.1) hwf.2

/-- The empty array satisfies the invariant with an empty ghost set. -/
theorem SparseInv.empty_inv {α : Type} :
    SparseInv (ComponentArray.empty (α := α)) (∅ : Finset Entity) := by
  refine { len_eq := rfl, lookup := ?_, idx_lt := ?_, inj := ?_,
           member := ?_ } <;>
    intro a b <;> simp [ComponentArray.empty] at *

/-- C1 (amended): every sequence of `set`/`remove`/`onEntityDestroyed`/
`clear` operations from the empty array preserves the sparse-set
invariant — equal dense lengths, `sparse[dense_entities[d].index] = d`,
and every dense entity previously passed to `set` and not since removed —
provided each `set(e, ·)` uses an entity that does not collide with a
*different* currently-stored entity of the same `u32` index (`WFops`);
the collision counterexample `C1_counterexample` shows the proviso is
necessary. -/
theorem C1_sparse_set_invariant {α : Type} (ops : List (CompOp α))
    (hwf : WFops ComponentArray.empty ops) :
    SparseInv (runOps ComponentArray.empty ops) (runLive ∅ ops) :=
  SparseInv.runOps_preserved SparseInv.empty_inv hwf

/-- C1 witness: a concrete well-formed sequence of two inserts and a
swap-remove. -/
theorem C1_sparse_set_invariant_witness :
    SparseInv
      (runOps (ComponentArray.empty (α := Nat))
        [.set ⟨0, 1⟩ 5, .set ⟨1, 1⟩ 6, .remove ⟨0, 1⟩])
      (runLive ∅ [.set ⟨0, 1⟩ 5, .set ⟨1, 1⟩ 6, .remove ⟨0, 1⟩]) :=
  C1_sparse_set_invariant _
    ⟨⟨by decide, by decide⟩, ⟨by decide, by decide⟩, trivial, trivial⟩

/-- C1 counterexample: from the empty array, `set (0,1)` then `set (0,2)`
(two generations of the same slot index, as arise from stale entity
handles) is a sequence of `set` operations after which
`sparse[dense_entities[0].index] = 1 ≠ 0`: the sparse-set invariant does
*not* hold for every operation sequence. -/
theorem C1_counterexample :
    collidedArray
        = runOps ComponentArray.empty [.set ⟨0, 1⟩ 0, .set ⟨0, 2⟩ 0] ∧
    collidedArray.denseEntities[0]? = some ⟨0, 1⟩ ∧
    collidedArray.sparse[(0 : Nat)]? = some 1 ∧
    ¬(∀ (d : Nat) (e : Entity), collidedArray.denseEntities[d]? = some e →
        collidedArray.sparse[e.index]? = some d) := by
  refine ⟨rfl, by decide, by decide, fun hall => ?_⟩
  have h0 := hall 0 ⟨0, 1⟩ (by decide)
  have h1 : collidedArray.sparse[(⟨0, 1⟩ : Entity).index]? = some 1 := by
    decide
  rw [h0] at h1
  exact absurd h1 (by decide)

end Autophage
